import Mathlib

/-!
Shallow embedding of the document capture pipeline of
`src/features/cameratopdf/CameraToPdfView.tsx` (the camera-scan-to-PDF tool):
frame acquisition (`handleCapture`), boundary detection and corner
classification (`findInitialCorners`), perspective-crop output sizing
(`handleApplyCrop`), corner dragging (`getPointerPosition` /
`handlePointerMove`), filtering (`applyFilter`), and the scanned page list
(`removePage`).  Coordinates and sizes are modelled as rationals; Euclidean
edge lengths (`Math.hypot`) are handled through their squares, which are
rational, with `Real.sqrt` appearing only in theorem statements.
-/

namespace CameraToPdf

/-- 2D point in CapturedFrame pixel coordinates (source: `interface Point`, line 18). -/
structure Point where
  x : ℚ
  y : ℚ
deriving DecidableEq

/-- The four document corners (source: `corners` state, line 35): top-left,
top-right, bottom-left, bottom-right, in CapturedFrame pixel coordinates. -/
structure CornerSet where
  tl : Point
  tr : Point
  bl : Point
  br : Point
deriving DecidableEq

/-- A captured still frame, reduced to its pixel dimensions (source:
`capturedImage` state, line 34; the bitmap itself is irrelevant to the claims). -/
structure CapturedFrame where
  width : ℚ
  height : ℚ
deriving DecidableEq

/-- Source: `MAX_DIMENSION = 1280` (line 114). -/
def MAX_DIMENSION : ℚ := 1280

/-- Source: `handleCapture` (lines 105-135).  `videoPresent` models the
`if (!videoRef.current) return` guard; `vw`/`vh` are `video.videoWidth` /
`video.videoHeight`.  The source has no further guard: it always downscales to
`MAX_DIMENSION` and commits a CapturedFrame.  For `vw = vh = 0` JavaScript
computes `(0/0)*1280 = NaN`, which the canvas `width` setter coerces to `0`;
rational division-by-zero gives the same committed value `0` here. -/
def handleCapture (videoPresent : Bool) (vw vh : ℚ) : Option CapturedFrame :=
  if videoPresent = false then none
  else if vw > vh then
    some { width := MAX_DIMENSION, height := vh / vw * MAX_DIMENSION }
  else
    some { width := vw / vh * MAX_DIMENSION, height := MAX_DIMENSION }

/-- A candidate contour as seen by the selection loop of `findInitialCorners`
(lines 181-200): `area` is `cv.contourArea(cnt)`, `approx` the vertex list of
`cv.approxPolyDP(cnt, 0.02*peri, true)`, `convex` is `cv.isContourConvex(approx)`. -/
structure Contour where
  area : ℚ
  approx : List Point
  convex : Bool

/-- Source: `const minArea = src.rows * src.cols * 0.1` (line 179);
`rows` is the frame height, `cols` its width. -/
def minArea (w h : ℚ) : ℚ := h * w * (10 / 100)

/-- The contour-selection loop of `findInitialCorners` (lines 178-200):
keep contours with `area > minArea` whose polygon approximation has exactly 4
vertices and is convex, tracking the maximum-area survivor (`maxArea` starts
at `-1`, `bestContourMat` at null). -/
def scanContours (minA : ℚ) : List Contour → ℚ → Option (List Point) → Option (List Point)
  | [], _, best => best
  | c :: rest, maxA, best =>
    if minA < c.area ∧ c.approx.length = 4 ∧ c.convex = true ∧ maxA < c.area then
      scanContours minA rest c.area (some c.approx)
    else
      scanContours minA rest maxA best

/-- The surviving best contour, if any (lines 178-200). -/
def bestContour (minA : ℚ) (cs : List Contour) : Option (List Point) :=
  scanContours minA cs (-1) none

/-- Comparator of `cornersBySum` (line 210): ascending in `x + y`. -/
def sumLe (a b : Point) : Bool := decide (a.x + a.y ≤ b.x + b.y)

/-- Comparator of `cornersByDiff` (line 211): ascending in `y - x`. -/
def diffLe (a b : Point) : Bool := decide (a.y - a.x ≤ b.y - b.x)

/-- Default point used for out-of-range list indexing in the embedding. -/
def originPt : Point := ⟨0, 0⟩

/-- Corner-role classification (lines 202-213): sort the four detected points
by `x + y` and by `y - x`; `tl` and `br` are the first and last by sum,
`tr` and `bl` the first and last by difference. -/
def classifyCorners (pts : List Point) : CornerSet :=
  let cornersBySum := pts.mergeSort sumLe
  let cornersByDiff := pts.mergeSort diffLe
  { tl := cornersBySum.getD 0 originPt, tr := cornersByDiff.getD 0 originPt,
    bl := cornersByDiff.getD 3 originPt, br := cornersBySum.getD 3 originPt }

/-- Fallback corner synthesis (lines 214-222 and 226-232): the margin is
`capturedImage.width * 0.05` — five percent of the frame WIDTH — and is used
as the inset on both the x and the y axis. -/
def fallbackCorners (w h : ℚ) : CornerSet :=
  let margin := w * (5 / 100)
  { tl := ⟨margin, margin⟩, tr := ⟨w - margin, margin⟩,
    bl := ⟨margin, h - margin⟩, br := ⟨w - margin, h - margin⟩ }

/-- Source: `findInitialCorners` (lines 137-245), abstracted over the vision
engine: `cvReady` models the `if (!cv)` early return (lines 142-146), which
produces no CornerSet; `exn` models a processing exception reaching the
`catch` (lines 223-232), which falls back; otherwise the best surviving
contour is classified, and its absence (lines 214-222) also falls back. -/
def findInitialCorners (cvReady : Bool) (w h : ℚ) (cs : List Contour) (exn : Bool) :
    Option CornerSet :=
  if cvReady = false then none
  else if exn = true then some (fallbackCorners w h)
  else
    match bestContour (minArea w h) cs with
    | some pts => some (classifyCorners pts)
    | none => some (fallbackCorners w h)

/-- Squared Euclidean length of the segment from `p` to `q`; the square of
`Math.hypot(q.x - p.x, q.y - p.y)`. -/
def edgeSq (p q : Point) : ℚ := (q.x - p.x) ^ 2 + (q.y - p.y) ^ 2

/-- Square of `maxWidth` in `handleApplyCrop` (lines 268-270):
`max(widthA, widthB)` with `widthA = hypot(br - bl)` (bottom edge) and
`widthB = hypot(tr - tl)` (top edge); `max` commutes with the square since
both arguments are nonnegative. -/
def maxWidthSq (c : CornerSet) : ℚ := max (edgeSq c.bl c.br) (edgeSq c.tl c.tr)

/-- Square of `maxHeight` in `handleApplyCrop` (lines 271-273):
`max(heightA, heightB)` with `heightA = hypot(tr - br)` (right edge) and
`heightB = hypot(tl - bl)` (left edge). -/
def maxHeightSq (c : CornerSet) : ℚ := max (edgeSq c.br c.tr) (edgeSq c.bl c.tl)

/-- The CornerSet of the spec scenario for the 1920x1080 frame. -/
def specCornerSet : CornerSet := ⟨⟨100, 100⟩, ⟨1800, 120⟩, ⟨80, 950⟩, ⟨1820, 980⟩⟩

/-- A fully degenerate CornerSet: all four corners coincide. -/
def degenerateCornerSet : CornerSet := ⟨⟨100, 100⟩, ⟨100, 100⟩, ⟨100, 100⟩, ⟨100, 100⟩⟩

/-- Source: `type FilterType` (line 21). -/
inductive FilterType
  | normal
  | bw
  | enhance
deriving DecidableEq

/-- The filtering-stage state relevant to the claims: the retained
`croppedImage` (line 37), the displayed `previewUrl` (line 39) and the
`activeFilter` selection (line 38), over an abstract bitmap type. -/
structure FilterState (Img : Type) where
  croppedImage : Img
  previewUrl : Img
  activeFilter : FilterType

/-- Source: `applyFilter` (lines 340-384), abstracted over the vision-library
filter kernels `bwF` (adaptive threshold, lines 360-364) and `enhF` (linear
contrast/brightness, lines 365-369).  `normal` sets the preview to the
retained cropped image directly (lines 344-347); the other modes derive a new
bitmap from `croppedImage`; a `none` result models the `catch` (lines
378-381), which leaves the previous preview displayed.  No branch writes to
`croppedImage`. -/
def applyFilter {Img : Type} (bwF enhF : Img → Option Img) (f : FilterType)
    (s : FilterState Img) : FilterState Img :=
  match f with
  | .normal => { s with activeFilter := .normal, previewUrl := s.croppedImage }
  | .bw => { s with activeFilter := .bw, previewUrl := (bwF s.croppedImage).getD s.previewUrl }
  | .enhance =>
    { s with activeFilter := .enhance, previewUrl := (enhF s.croppedImage).getD s.previewUrl }

/-- A sequence of filter selections applied in order. -/
def applyFilterSeq {Img : Type} (bwF enhF : Img → Option Img) (fs : List FilterType)
    (s : FilterState Img) : FilterState Img :=
  fs.foldl (fun st f => applyFilter bwF enhF f st) s

/-- The bounding client rect of the displayed image (`getBoundingClientRect`,
line 312). -/
structure DomRect where
  left : ℚ
  top : ℚ
  width : ℚ
  height : ℚ

/-- Source: `getPointerPosition` (lines 310-320): client coordinates scaled
into CapturedFrame pixel space; no clamping to the frame bounds. -/
def getPointerPosition (frame : CapturedFrame) (rect : DomRect) (clientX clientY : ℚ) : Point :=
  let scaleX := frame.width / rect.width
  let scaleY := frame.height / rect.height
  ⟨(clientX - rect.left) * scaleX, (clientY - rect.top) * scaleY⟩

/-- Source: `type Corner` (line 20). -/
inductive Corner
  | tl
  | tr
  | bl
  | br
deriving DecidableEq

/-- The `setCorners(prev => ({ ...prev, [draggingCorner]: pos }))` update
(line 332). -/
def updateCorner (c : CornerSet) (k : Corner) (p : Point) : CornerSet :=
  match k with
  | .tl => { c with tl := p }
  | .tr => { c with tr := p }
  | .bl => { c with bl := p }
  | .br => { c with br := p }

/-- Source: `handlePointerMove` (lines 327-334): when a corner is being
dragged, that corner is set to the pointer position mapped into frame space;
otherwise the CornerSet is unchanged. -/
def handlePointerMove (dragging : Option Corner) (frame : CapturedFrame) (rect : DomRect)
    (clientX clientY : ℚ) (c : CornerSet) : CornerSet :=
  match dragging with
  | none => c
  | some k => updateCorner c k (getPointerPosition frame rect clientX clientY)

/-- A point lies within the frame bounds (spec section 3 invariant). -/
abbrev inBounds (w h : ℚ) (p : Point) : Prop :=
  0 ≤ p.x ∧ p.x ≤ w ∧ 0 ≤ p.y ∧ p.y ≤ h

/-- All four corners lie within the frame bounds. -/
abbrev cornersInBounds (w h : ℚ) (c : CornerSet) : Prop :=
  inBounds w h c.tl ∧ inBounds w h c.tr ∧ inBounds w h c.bl ∧ inBounds w h c.br

/-- Source: `type ViewState` (line 19). -/
inductive ViewState
  | INITIAL
  | SCANNING
  | EDITING
  | FILTERING
deriving DecidableEq

/-- The pipeline state touched by capture, retake and detection completion:
frames are identified by a number; `corners` records which frame the stored
detection result was computed from. -/
structure ScanSession where
  viewState : ViewState
  capturedFrame : Option Nat
  corners : Option Nat
deriving DecidableEq

/-- The events of the capture/detection interleaving: `capture fid` is
`handleCapture` committing frame `fid` (lines 131-134), `retake` is the
Retake button (line 593, `setViewState('SCANNING')` only), and
`detectDone fid` is the asynchronous completion of `findInitialCorners` for
the frame `fid` it was started on. -/
inductive ScanEvent
  | capture (fid : Nat)
  | retake
  | detectDone (fid : Nat)
deriving DecidableEq

/-- One step of the pipeline state, as the source handlers write it:
`handleCapture` sets the frame and enters EDITING (lines 131-134, leaving
`corners` as it was); Retake only switches the view back to SCANNING; a
detection completion executes `setCorners(...)` unconditionally (line 213 or
216/227) — the source contains no check that its frame is still the live one. -/
def scanStep (s : ScanSession) (e : ScanEvent) : ScanSession :=
  match e with
  | .capture fid => { s with viewState := .EDITING, capturedFrame := some fid }
  | .retake => { s with viewState := .SCANNING }
  | .detectDone fid => { s with corners := some fid }

/-- Run a sequence of pipeline events. -/
def scanRun (s : ScanSession) (es : List ScanEvent) : ScanSession := es.foldl scanStep s

/-- Source: `interface ProcessedImage` (lines 9-12); `id` is the
`Date.now()` value assigned at append (line 388). -/
structure ProcessedImage where
  id : Nat
  dataUrl : String
deriving DecidableEq

/-- Source: `removePage` (lines 394-396):
`scannedPages.filter(img => img.id !== id)`. -/
def removePage (pid : Nat) (pages : List ProcessedImage) : List ProcessedImage :=
  pages.filter fun img => img.id != pid

/-- Helper: an in-range `getD` is a member of the list. -/
theorem getD_mem_of_lt {α : Type} (l : List α) (n : Nat) (d : α) (h : n < l.length) :
    l.getD n d ∈ l := by
  rw [List.getD_eq_getElem l d h]
  exact List.getElem_mem h

/-- Helper: `applyFilter` never writes to the retained cropped image. -/
theorem applyFilter_croppedImage {Img : Type} (bwF enhF : Img → Option Img) (f : FilterType)
    (s : FilterState Img) : (applyFilter bwF enhF f s).croppedImage = s.croppedImage := by
  cases f <;> rfl

/-- Helper: no sequence of filter selections writes to the cropped image. -/
theorem applyFilterSeq_croppedImage {Img : Type} (bwF enhF : Img → Option Img)
    (fs : List FilterType) (s : FilterState Img) :
    (applyFilterSeq bwF enhF fs s).croppedImage = s.croppedImage := by
  induction fs generalizing s with
  | nil => rfl
  | cons f rest ih =>
    rw [applyFilterSeq, List.foldl_cons]
    exact (ih (applyFilter bwF enhF f s)).trans (applyFilter_croppedImage bwF enhF f s)

/-- C2 counterexample: on a 1920x1080 frame the fallback CornerSet is NOT the
claimed `{tl:(96,54), tr:(1824,54), bl:(96,1026), br:(1824,1026)}`: the source
computes the margin once, as 5 percent of the WIDTH, and uses it on both axes,
so the y-insets are 96, not 54. -/
theorem C2_fallback_counterexample :
    fallbackCorners 1920 1080 ≠ ⟨⟨96, 54⟩, ⟨1824, 54⟩, ⟨96, 1026⟩, ⟨1824, 1026⟩⟩ := by
  norm_num [fallbackCorners, CornerSet.mk.injEq, Point.mk.injEq]

/-- C2 (amended): whenever detection finds no surviving contour, or raises a
processing exception, `findInitialCorners` returns the fallback CornerSet,
which is the rectangle inset by 5 percent of the frame WIDTH on each side
(both axes); for a 1920x1080 frame this is
`{tl:(96,96), tr:(1824,96), bl:(96,984), br:(1824,984)}`. -/
theorem C2_fallback_amended :
    (∀ (w h : ℚ) (cs : List Contour), bestContour (minArea w h) cs = none →
        findInitialCorners true w h cs false = some (fallbackCorners w h)) ∧
    (∀ (w h : ℚ) (cs : List Contour),
        findInitialCorners true w h cs true = some (fallbackCorners w h)) ∧
    (∀ w h : ℚ, fallbackCorners w h =
        ⟨⟨w * (5 / 100), w * (5 / 100)⟩, ⟨w - w * (5 / 100), w * (5 / 100)⟩,
          ⟨w * (5 / 100), h - w * (5 / 100)⟩, ⟨w - w * (5 / 100), h - w * (5 / 100)⟩⟩) ∧
    fallbackCorners 1920 1080 = ⟨⟨96, 96⟩, ⟨1824, 96⟩, ⟨96, 984⟩, ⟨1824, 984⟩⟩ := by
  refine ⟨fun w h cs hnone => ?_, fun w h cs => ?_, fun w h => rfl,
    by norm_num [fallbackCorners, CornerSet.mk.injEq, Point.mk.injEq]⟩
  · simp [findInitialCorners, hnone]
  · simp [findInitialCorners]

/-- C2 amended witness: the no-surviving-contour hypothesis discharged on the
empty contour list for a concrete frame. -/
theorem C2_fallback_amended_witness :
    bestContour (minArea 1920 1080) [] = none ∧
    findInitialCorners true 1920 1080 [] false = some (fallbackCorners 1920 1080) :=
  ⟨rfl, C2_fallback_amended.1 1920 1080 [] rfl⟩

/-- C3: once the vision engine is available (which the flow guarantees before
any frame can be captured: the scanner only starts when `isCvReady` is set),
boundary detection always yields a CornerSet — for every frame size, every
contour outcome (including no surviving contour), and also when the engine
raises a processing exception. -/
theorem C3_detection_always_corners :
    ∀ (w h : ℚ) (cs : List Contour) (exn : Bool),
      (findInitialCorners true w h cs exn).isSome = true := by
  intro w h cs exn
  cases exn
  · simp only [findInitialCorners]
    cases bestContour (minArea w h) cs <;> simp
  · simp [findInitialCorners]

/-- C4 evaluation at the failing input: for the fully degenerate CornerSet
(all four corners equal) `handleApplyCrop` computes output dimensions 0x0 —
both squared dimensions are exactly 0, so the output width `Math.max` produces
is 0, strictly below the 1-pixel minimum the claim requires; the source
contains no clamp. -/
theorem C4_degenerate_output_zero :
    maxWidthSq degenerateCornerSet = 0 ∧ maxHeightSq degenerateCornerSet = 0 ∧
    Real.sqrt ((maxWidthSq degenerateCornerSet : ℚ) : ℝ) < 1 := by
  have h0 : maxWidthSq degenerateCornerSet = 0 := by
    norm_num [maxWidthSq, edgeSq, degenerateCornerSet]
  have h1 : maxHeightSq degenerateCornerSet = 0 := by
    norm_num [maxHeightSq, edgeSq, degenerateCornerSet]
  refine ⟨h0, h1, ?_⟩
  rw [h0]
  norm_num

/-- C5 evaluation at the failing input: with a video element present but no
frame produced yet (`videoWidth = videoHeight = 0`), `handleCapture` is NOT
rejected: it commits a degenerate CapturedFrame of width 0 (JavaScript:
`(0/0)*1280 = NaN`, coerced to 0 by the canvas) and height 1280. -/
theorem C5_zero_video_not_rejected :
    handleCapture true 0 0 = some ⟨0, 1280⟩ := by
  norm_num [handleCapture, MAX_DIMENSION, CapturedFrame.mk.injEq]

/-- C8 evaluation at the failing input: capture frame 1, retake, capture
frame 2, frame 2's detection completes, then frame 1's stale detection
completes late.  The source applies every completion unconditionally, so the
final state holds corners computed from the discarded frame 1 while the live
frame is 2 — the stale completion is applied, not dropped. -/
theorem C8_stale_detection_applied :
    scanRun ⟨.SCANNING, none, none⟩
        [.capture 1, .retake, .capture 2, .detectDone 2, .detectDone 1] =
      ⟨.EDITING, some 2, some 1⟩ := by decide

/-- C7: filtering never mutates the retained CroppedPage, and any sequence of
filter selections ending on `normal` makes the preview pixel-identical to the
retained CroppedPage (`normal` is a pure passthrough of it), for arbitrary
filter kernels including ones that may fail. -/
theorem C7_normal_roundtrip {Img : Type} (bwF enhF : Img → Option Img)
    (fs : List FilterType) (s : FilterState Img) :
    (applyFilterSeq bwF enhF (fs ++ [FilterType.normal]) s).previewUrl = s.croppedImage ∧
    (applyFilterSeq bwF enhF (fs ++ [FilterType.normal]) s).croppedImage = s.croppedImage := by
  have happ : applyFilterSeq bwF enhF (fs ++ [FilterType.normal]) s
      = applyFilter bwF enhF .normal (applyFilterSeq bwF enhF fs s) := by
    rw [applyFilterSeq, List.foldl_append]
    rfl
  rw [happ]
  constructor
  · show (applyFilterSeq bwF enhF fs s).croppedImage = s.croppedImage
    exact applyFilterSeq_croppedImage bwF enhF fs s
  · rw [applyFilter_croppedImage]
    exact applyFilterSeq_croppedImage bwF enhF fs s

/-- C10: when page ids are distinct (as `Date.now()` identities are) and the
given id is present, `removePage` removes exactly the entry with that id —
the result is the list with (only) the first id-match erased, is a sublist of
the original (so relative order of the untouched entries is preserved), and
is one entry shorter. -/
theorem C10_removePage_erases_exactly (pages : List ProcessedImage) (pid : Nat)
    (hnodup : (pages.map fun img => img.id).Nodup)
    (hmem : ∃ p ∈ pages, p.id = pid) :
    removePage pid pages = pages.eraseP (fun img => img.id == pid) ∧
    (removePage pid pages).Sublist pages ∧
    (removePage pid pages).length + 1 = pages.length := by
  have key : ∀ l : List ProcessedImage, (l.map fun img => img.id).Nodup →
      removePage pid l = l.eraseP (fun img => img.id == pid) := by
    intro l hl
    induction l with
    | nil => rfl
    | cons p rest ih =>
      simp only [List.map_cons, List.nodup_cons, List.mem_map] at hl
      by_cases hp : p.id = pid
      · rw [removePage, List.filter_cons, List.eraseP_cons_of_pos (by simp [hp])]
        have hfalse : (p.id != pid) = false := by simp [hp]
        rw [hfalse]
        simp only [Bool.false_eq_true, if_false]
        rw [show List.filter (fun img => img.id != pid) rest = removePage pid rest from rfl]
        rw [ih hl.2]
        apply List.eraseP_of_forall_not
        intro q hq
        simp only [beq_iff_eq]
        intro hqid
        exact hl.1 ⟨q, hq, hqid.trans hp.symm⟩
      · rw [removePage, List.filter_cons, List.eraseP_cons_of_neg (by simp [hp])]
        have htrue : (p.id != pid) = true := by simp [hp]
        rw [htrue]
        simp only [if_true]
        rw [show List.filter (fun img => img.id != pid) rest = removePage pid rest from rfl]
        rw [ih hl.2]
  obtain ⟨a, ha, haid⟩ := hmem
  have h1 := key pages hnodup
  refine ⟨h1, List.filter_sublist pages, ?_⟩
  rw [h1]
  exact List.length_eraseP_add_one ha (by simp [haid])

/-- C10 witness: deleting id 2 from a concrete three-page list. -/
theorem C10_removePage_witness :
    removePage 2 [⟨1, "a"⟩, ⟨2, "b"⟩, ⟨3, "c"⟩] =
        List.eraseP (fun img => img.id == 2) [⟨1, "a"⟩, ⟨2, "b"⟩, ⟨3, "c"⟩] ∧
    (removePage 2 [⟨1, "a"⟩, ⟨2, "b"⟩, ⟨3, "c"⟩]).Sublist [⟨1, "a"⟩, ⟨2, "b"⟩, ⟨3, "c"⟩] ∧
    (removePage 2 [⟨1, "a"⟩, ⟨2, "b"⟩, ⟨3, "c"⟩]).length + 1 =
      ([⟨1, "a"⟩, ⟨2, "b"⟩, ⟨3, "c"⟩] : List ProcessedImage).length :=
  C10_removePage_erases_exactly [⟨1, "a"⟩, ⟨2, "b"⟩, ⟨3, "c"⟩] 2 (by decide)
    ⟨⟨2, "b"⟩, by decide, rfl⟩

/-- C9 counterexample: from the in-bounds fallback CornerSet of a 1280x720
frame, a drag whose pointer sits 50 client pixels left of the displayed image
(rect left edge at 100, pointer at clientX 50, 1:1 scale) moves the dragged
corner to x = -50, outside the frame bounds — `handlePointerMove` applies the
mapped pointer position without clamping. -/
theorem C9_drag_counterexample :
    cornersInBounds 1280 720 (fallbackCorners 1280 720) ∧
    ¬ cornersInBounds 1280 720
        (handlePointerMove (some .tl) ⟨1280, 720⟩ ⟨100, 0, 1280, 720⟩ 50 100
          (fallbackCorners 1280 720)) := by
  constructor
  · refine ⟨⟨?_, ?_, ?_, ?_⟩, ⟨?_, ?_, ?_, ?_⟩, ⟨?_, ?_, ?_, ?_⟩, ⟨?_, ?_, ?_, ?_⟩⟩ <;>
      norm_num [fallbackCorners]
  · intro hcontra
    have hx := hcontra.1.1
    norm_num [handlePointerMove, updateCorner, getPointerPosition, fallbackCorners] at hx

/-- C9 (amended): detection classification returns corners drawn from the
detected contour points (hence in bounds whenever those are), and fallback
synthesis yields in-bounds corners whenever the 5-percent-of-width margin
does not exceed the frame height; corner dragging, however, does not preserve
the invariant (see the counterexample). -/
theorem C9_amended_bounds :
    (∀ w h : ℚ, 0 ≤ w → w * (5 / 100) ≤ h → cornersInBounds w h (fallbackCorners w h)) ∧
    (∀ (w h : ℚ) (pts : List Point), pts.length = 4 → (∀ p ∈ pts, inBounds w h p) →
        cornersInBounds w h (classifyCorners pts)) := by
  constructor
  · intro w h hw hm
    refine ⟨⟨?_, ?_, ?_, ?_⟩, ⟨?_, ?_, ?_, ?_⟩, ⟨?_, ?_, ?_, ?_⟩, ⟨?_, ?_, ?_, ?_⟩⟩ <;>
      simp only [fallbackCorners] <;> linarith
  · intro w h pts h4 hin
    have hlen1 : (pts.mergeSort sumLe).length = 4 :=
      (List.mergeSort_perm pts sumLe).length_eq.trans h4
    have hlen2 : (pts.mergeSort diffLe).length = 4 :=
      (List.mergeSort_perm pts diffLe).length_eq.trans h4
    have m1 : (pts.mergeSort sumLe).getD 0 originPt ∈ pts :=
      (List.mergeSort_perm pts sumLe).subset (getD_mem_of_lt _ 0 _ (by omega))
    have m2 : (pts.mergeSort diffLe).getD 0 originPt ∈ pts :=
      (List.mergeSort_perm pts diffLe).subset (getD_mem_of_lt _ 0 _ (by omega))
    have m3 : (pts.mergeSort diffLe).getD 3 originPt ∈ pts :=
      (List.mergeSort_perm pts diffLe).subset (getD_mem_of_lt _ 3 _ (by omega))
    have m4 : (pts.mergeSort sumLe).getD 3 originPt ∈ pts :=
      (List.mergeSort_perm pts sumLe).subset (getD_mem_of_lt _ 3 _ (by omega))
    exact ⟨hin _ m1, hin _ m2, hin _ m3, hin _ m4⟩

/-- C9 amended witness: the fallback bounds hypotheses discharged on a
concrete 1920x1080 frame. -/
theorem C9_amended_bounds_witness :
    (0 : ℚ) ≤ 1920 ∧ (1920 : ℚ) * (5 / 100) ≤ 1080 ∧
    cornersInBounds 1920 1080 (fallbackCorners 1920 1080) :=
  ⟨by norm_num, by norm_num, C9_amended_bounds.1 1920 1080 (by norm_num) (by norm_num)⟩

/-- Helper: for a four-element list sorted stably by a transitive total
Bool comparator — the embedding of `Array.prototype.sort` — the element at
index 0 is below every input element and the element at index 3 above. -/
theorem mergeSort_getD_bounds (le : Point → Point → Bool)
    (htr : ∀ a b c : Point, le a b = true → le b c = true → le a c = true)
    (hto : ∀ a b : Point, (le a b || le b a) = true)
    (pts : List Point) (h4 : pts.length = 4) :
    ((pts.mergeSort le).getD 0 originPt ∈ pts ∧
      ∀ p ∈ pts, le ((pts.mergeSort le).getD 0 originPt) p = true) ∧
    ((pts.mergeSort le).getD 3 originPt ∈ pts ∧
      ∀ p ∈ pts, le p ((pts.mergeSort le).getD 3 originPt) = true) := by
  have hperm := List.mergeSort_perm pts le
  have hsort := List.sorted_mergeSort htr hto pts
  have hlen : (pts.mergeSort le).length = 4 := hperm.length_eq.trans h4
  have hrefl : ∀ a : Point, le a a = true := by
    intro a
    have h := hto a a
    simpa using h
  obtain ⟨a, b, c, d, hs⟩ : ∃ a b c d, pts.mergeSort le = [a, b, c, d] := by
    rcases hm : pts.mergeSort le with _ | ⟨a, _ | ⟨b, _ | ⟨c, _ | ⟨d, _ | ⟨e, t⟩⟩⟩⟩⟩ <;>
      rw [hm] at hlen
    · simp at hlen
    · simp at hlen
    · simp at hlen
    · simp at hlen
    · exact ⟨a, b, c, d, rfl⟩
    · simp at hlen
  rw [hs] at hperm hsort ⊢
  simp only [List.pairwise_cons, List.mem_cons, List.mem_singleton, List.not_mem_nil,
    forall_eq_or_imp, forall_eq, List.Pairwise.nil, and_true, IsEmpty.forall_iff,
    implies_true] at hsort
  obtain ⟨⟨hab, hac, had⟩, ⟨hbc, hbd⟩, hcd⟩ := hsort
  have hmem : ∀ p ∈ pts, p = a ∨ p = b ∨ p = c ∨ p = d := by
    intro p hp
    have hp4 : p ∈ [a, b, c, d] := hperm.mem_iff.mpr hp
    simpa using hp4
  refine ⟨⟨hperm.subset (by simp), fun p hp => ?_⟩, ⟨hperm.subset (by simp), fun p hp => ?_⟩⟩
  · rcases hmem p hp with rfl | rfl | rfl | rfl
    · exact hrefl p
    · exact hab
    · exact hac
    · exact had
  · rcases hmem p hp with rfl | rfl | rfl | rfl
    · exact had
    · exact hbd
    · exact hcd
    · exact hrefl p

/-- C6: for every 4-vertex candidate, in any input order, the classification
of `findInitialCorners` assigns tl attaining the minimum of x+y, br the
maximum of x+y, tr the minimum of y-x, and bl the maximum of y-x, each drawn
from the candidate points. -/
theorem C6_corner_classification (pts : List Point) (h4 : pts.length = 4) :
    ((classifyCorners pts).tl ∈ pts ∧
      ∀ p ∈ pts, (classifyCorners pts).tl.x + (classifyCorners pts).tl.y ≤ p.x + p.y) ∧
    ((classifyCorners pts).br ∈ pts ∧
      ∀ p ∈ pts, p.x + p.y ≤ (classifyCorners pts).br.x + (classifyCorners pts).br.y) ∧
    ((classifyCorners pts).tr ∈ pts ∧
      ∀ p ∈ pts, (classifyCorners pts).tr.y - (classifyCorners pts).tr.x ≤ p.y - p.x) ∧
    ((classifyCorners pts).bl ∈ pts ∧
      ∀ p ∈ pts, p.y - p.x ≤ (classifyCorners pts).bl.y - (classifyCorners pts).bl.x) := by
  have hsumtr : ∀ a b c : Point, sumLe a b = true → sumLe b c = true → sumLe a c = true := by
    intro a b c hab hbc
    simp only [sumLe, decide_eq_true_eq] at hab hbc ⊢
    linarith
  have hsumto : ∀ a b : Point, (sumLe a b || sumLe b a) = true := by
    intro a b
    simp only [sumLe, Bool.or_eq_true, decide_eq_true_eq]
    exact le_total _ _
  have hdifftr : ∀ a b c : Point, diffLe a b = true → diffLe b c = true → diffLe a c = true := by
    intro a b c hab hbc
    simp only [diffLe, decide_eq_true_eq] at hab hbc ⊢
    linarith
  have hdiffto : ∀ a b : Point, (diffLe a b || diffLe b a) = true := by
    intro a b
    simp only [diffLe, Bool.or_eq_true, decide_eq_true_eq]
    exact le_total _ _
  have hsum := mergeSort_getD_bounds sumLe hsumtr hsumto pts h4
  have hdiff := mergeSort_getD_bounds diffLe hdifftr hdiffto pts h4
  refine ⟨⟨hsum.1.1, fun p hp => ?_⟩, ⟨hsum.2.1, fun p hp => ?_⟩,
    ⟨hdiff.1.1, fun p hp => ?_⟩, ⟨hdiff.2.1, fun p hp => ?_⟩⟩
  · have h := hsum.1.2 p hp
    simp only [sumLe, decide_eq_true_eq] at h
    exact h
  · have h := hsum.2.2 p hp
    simp only [sumLe, decide_eq_true_eq] at h
    exact h
  · have h := hdiff.1.2 p hp
    simp only [diffLe, decide_eq_true_eq] at h
    exact h
  · have h := hdiff.2.2 p hp
    simp only [diffLe, decide_eq_true_eq] at h
    exact h

/-- C6 witness: the length hypothesis discharged on a concrete four-point
candidate, with the classified top-left corner among the candidate points. -/
theorem C6_corner_classification_witness :
    ([⟨1, 1⟩, ⟨9, 2⟩, ⟨2, 8⟩, ⟨10, 9⟩] : List Point).length = 4 ∧
    ((classifyCorners [⟨1, 1⟩, ⟨9, 2⟩, ⟨2, 8⟩, ⟨10, 9⟩]).tl ∈
      ([⟨1, 1⟩, ⟨9, 2⟩, ⟨2, 8⟩, ⟨10, 9⟩] : List Point)) :=
  ⟨by simp, (C6_corner_classification [⟨1, 1⟩, ⟨9, 2⟩, ⟨2, 8⟩, ⟨10, 9⟩] (by simp)).1.1⟩

/-- Helper: squared edge length is orientation-independent. -/
theorem edgeSq_comm (p q : Point) : edgeSq p q = edgeSq q p := by
  unfold edgeSq
  ring

/-- C1 counterexample: for the spec scenario CornerSet
`{tl:(100,100), tr:(1800,120), bl:(80,950), br:(1820,980)}` the output width
computed by `handleApplyCrop` is NOT approximately 1700: the bottom edge
bl-br has length sqrt(1740^2 + 30^2), which exceeds 1701, so the maximum of
the two horizontal edges is more than a pixel away from 1700. -/
theorem C1_width_counterexample :
    ¬ |Real.sqrt ((maxWidthSq specCornerSet : ℚ) : ℝ) - 1700| ≤ 1 := by
  have hq : maxWidthSq specCornerSet = 3028500 := by
    norm_num [maxWidthSq, edgeSq, specCornerSet]
  have hcast : ((maxWidthSq specCornerSet : ℚ) : ℝ) = 3028500 := by
    rw [hq]
    norm_num
  have h1 : (1701 : ℝ) < Real.sqrt ((maxWidthSq specCornerSet : ℚ) : ℝ) := by
    rw [hcast]
    exact (Real.lt_sqrt (by norm_num)).mpr (by norm_num)
  intro habs
  have h2 : Real.sqrt ((maxWidthSq specCornerSet : ℚ) : ℝ) - 1700 ≤ 1 :=
    le_trans (le_abs_self _) habs
  linarith

/-- C1 (amended): `handleApplyCrop` sizes the output as the greater of the
two horizontal edge lengths (tl-tr, bl-br) by the greater of the two vertical
edge lengths (tl-bl, tr-br); for the spec scenario corner set on the
1920x1080 frame the output is approximately 1740 wide (within a pixel:
the bottom edge dominates) and approximately 860 high. -/
theorem C1_crop_dims_amended :
    (∀ c : CornerSet,
        Real.sqrt ((maxWidthSq c : ℚ) : ℝ)
          = max (Real.sqrt ((edgeSq c.tl c.tr : ℚ) : ℝ))
              (Real.sqrt ((edgeSq c.bl c.br : ℚ) : ℝ)) ∧
        Real.sqrt ((maxHeightSq c : ℚ) : ℝ)
          = max (Real.sqrt ((edgeSq c.tl c.bl : ℚ) : ℝ))
              (Real.sqrt ((edgeSq c.tr c.br : ℚ) : ℝ))) ∧
    (1740 < Real.sqrt ((maxWidthSq specCornerSet : ℚ) : ℝ) ∧
      Real.sqrt ((maxWidthSq specCornerSet : ℚ) : ℝ) < 1741) ∧
    (860 < Real.sqrt ((maxHeightSq specCornerSet : ℚ) : ℝ) ∧
      Real.sqrt ((maxHeightSq specCornerSet : ℚ) : ℝ) < 861) := by
  have hmono : Monotone Real.sqrt := fun a b hab => Real.sqrt_le_sqrt hab
  have hqw : maxWidthSq specCornerSet = 3028500 := by
    norm_num [maxWidthSq, edgeSq, specCornerSet]
  have hqh : maxHeightSq specCornerSet = 740000 := by
    norm_num [maxHeightSq, edgeSq, specCornerSet]
  have hcw : ((maxWidthSq specCornerSet : ℚ) : ℝ) = 3028500 := by
    rw [hqw]
    norm_num
  have hch : ((maxHeightSq specCornerSet : ℚ) : ℝ) = 740000 := by
    rw [hqh]
    norm_num
  refine ⟨fun c => ⟨?_, ?_⟩, ⟨?_, ?_⟩, ⟨?_, ?_⟩⟩
  · rw [maxWidthSq,
      show ((max (edgeSq c.bl c.br) (edgeSq c.tl c.tr) : ℚ) : ℝ)
          = max ((edgeSq c.bl c.br : ℚ) : ℝ) ((edgeSq c.tl c.tr : ℚ) : ℝ) from by
        push_cast
        rfl,
      hmono.map_max, max_comm]
  · rw [maxHeightSq, edgeSq_comm c.tl c.bl, edgeSq_comm c.tr c.br,
      show ((max (edgeSq c.br c.tr) (edgeSq c.bl c.tl) : ℚ) : ℝ)
          = max ((edgeSq c.br c.tr : ℚ) : ℝ) ((edgeSq c.bl c.tl : ℚ) : ℝ) from by
        push_cast
        rfl,
      hmono.map_max, max_comm]
  · rw [hcw]
    exact (Real.lt_sqrt (by norm_num)).mpr (by norm_num)
  · rw [hcw]
    exact (Real.sqrt_lt' (by norm_num)).mpr (by norm_num)
  · rw [hch]
    exact (Real.lt_sqrt (by norm_num)).mpr (by norm_num)
  · rw [hch]
    exact (Real.sqrt_lt' (by norm_num)).mpr (by norm_num)

end CameraToPdf
